import Mathlib

/-!
Shallow embedding of the Motion-Rendering-React repository: a catalog of
Remotion animation components, each a pure function of the current frame
and style props producing a static visual description.  We embed the
framework primitives (`interpolate`, the seeded `random`) and the per-frame
arithmetic of the components named by the specification, and prove the
claimed properties.
-/

namespace Remotion

/-- Extrapolation behaviour of Remotion's `interpolate`
(`extrapolateLeft` / `extrapolateRight` options). -/
inductive Extrapolate where
  | extend
  | clamp
  | identity
deriving DecidableEq, Repr

/-- Remotion's `interpolate(input, [a, b], [c, d], {easing, extrapolateLeft,
extrapolateRight})` for a two-point input range: the input is first
extrapolated (identity returns the raw input, clamp pins it to the range,
extend leaves it), then normalised over the input range, passed through the
easing function, and mapped onto the output range. -/
def interpolate {K : Type} [LinearOrderedField K]
    (easing : K → K) (el er : Extrapolate) (a b c d x : K) : K :=
  if el = Extrapolate.identity ∧ x < a then x
  else if er = Extrapolate.identity ∧ b < x then x
  else
    let x1 := if el = Extrapolate.clamp ∧ x < a then a else x
    let x2 := if er = Extrapolate.clamp ∧ b < x1 then b else x1
    easing ((x2 - a) / (b - a)) * (d - c) + c

/-- JavaScript `ToUint32`: reduce a natural number modulo 2^32. -/
def u32 (n : ℕ) : ℕ := n % 4294967296

/-- JavaScript 32-bit `^` on our unsigned representatives. -/
def jsXor (a b : ℕ) : ℕ := Nat.xor (u32 a) (u32 b)

/-- JavaScript unsigned right shift `>>>`. -/
def jsShr (a k : ℕ) : ℕ := (u32 a) >>> k

/-- JavaScript 32-bit `|` on our unsigned representatives. -/
def jsOr (a b : ℕ) : ℕ := Nat.lor (u32 a) (u32 b)

/-- JavaScript `Math.imul`: 32-bit product (bit pattern, unsigned form). -/
def imul (a b : ℕ) : ℕ := u32 (u32 a * u32 b)

/-- The mulberry32 hash at the heart of Remotion's deterministic `random`:
`let t = (seed += 0x6d2b79f5); t = Math.imul(t ^ (t >>> 15), t | 1);
t ^= t + Math.imul(t ^ (t >>> 7), t | 61);
return ((t ^ (t >>> 14)) >>> 0) / 4294967296` (numerator part). -/
def mulberry32 (seed : ℕ) : ℕ :=
  let t0 := u32 (seed + 0x6d2b79f5)
  let t1 := imul (jsXor t0 (jsShr t0 15)) (jsOr t0 1)
  let t2 := u32 (jsXor t1 (u32 (t1 + imul (jsXor t1 (jsShr t1 7)) (jsOr t1 61))))
  u32 (jsXor t2 (jsShr t2 14))

/-- Remotion's `random(seed)` for a numeric seed: the seed is scaled by
10^10 and fed to mulberry32; the 32-bit result is divided by 2^32. -/
def random (seed : ℕ) : ℚ := (mulberry32 (seed * 10000000000) : ℚ) / 4294967296

theorem u32_lt (n : ℕ) : u32 n < 4294967296 := Nat.mod_lt _ (by norm_num)

theorem random_nonneg (seed : ℕ) : 0 ≤ random seed := by
  unfold random
  positivity

theorem mulberry32_lt (seed : ℕ) : mulberry32 seed < 4294967296 := by
  unfold mulberry32
  exact u32_lt _

theorem random_lt_one (seed : ℕ) : random seed < 1 := by
  unfold random
  rw [div_lt_one (by norm_num)]
  exact_mod_cast mulberry32_lt (seed * 10000000000)

theorem interpolate_extend_extend {K : Type} [LinearOrderedField K]
    (e : K → K) (a b c d x : K) :
    interpolate e Extrapolate.extend Extrapolate.extend a b c d x =
      e ((x - a) / (b - a)) * (d - c) + c := by
  simp [interpolate]

theorem interpolate_extend_clamp {K : Type} [LinearOrderedField K]
    (e : K → K) (a b c d x : K) :
    interpolate e Extrapolate.extend Extrapolate.clamp a b c d x =
      e (((if b < x then b else x) - a) / (b - a)) * (d - c) + c := by
  simp [interpolate]

theorem interpolate_clamp_clamp {K : Type} [LinearOrderedField K]
    (e : K → K) (a b c d x : K) :
    interpolate e Extrapolate.clamp Extrapolate.clamp a b c d x =
      e (((if b < (if x < a then a else x) then b else (if x < a then a else x)) - a)
        / (b - a)) * (d - c) + c := by
  simp [interpolate]

end Remotion

/-- JavaScript truncation toward zero of a rational (used by the `%`
remainder operator). -/
def qTrunc (q : ℚ) : ℤ := if 0 ≤ q then ⌊q⌋ else ⌈q⌉

/-- JavaScript `%` (remainder) on rationals: `a - b * trunc(a / b)`. -/
def jsMod (a b : ℚ) : ℚ := a - b * (qTrunc (a / b) : ℚ)

/-- JavaScript truncation toward zero of a real number. -/
noncomputable def rTrunc (r : ℝ) : ℤ := if 0 ≤ r then ⌊r⌋ else ⌈r⌉

/-- JavaScript `%` (remainder) on reals: `a - b * trunc(a / b)`. -/
noncomputable def jsModR (a b : ℝ) : ℝ := a - b * (rTrunc (a / b) : ℝ)

/-- A two-control-point cubic Bezier coordinate function with endpoints 0
and 1, as used by CSS/Remotion `Easing.bezier`: the curve
`3 (1-s)^2 s p1 + 3 (1-s) s^2 p2 + s^3`. -/
def bezier3 (p1 p2 s : ℝ) : ℝ :=
  3 * (1 - s) ^ 2 * s * p1 + 3 * (1 - s) * s ^ 2 * p2 + s ^ 3

/-- x-coordinate of `Easing.bezier(0.25, 0.1, 0.25, 1.0)`. -/
def zenX (s : ℝ) : ℝ := bezier3 0.25 0.25 s

/-- y-coordinate of `Easing.bezier(0.25, 0.1, 0.25, 1.0)`. -/
def zenY (s : ℝ) : ℝ := bezier3 0.1 1.0 s

theorem zenX_zero : zenX 0 = 0 := by norm_num [zenX, bezier3]

theorem zenX_one : zenX 1 = 1 := by norm_num [zenX, bezier3]

theorem zenY_zero : zenY 0 = 0 := by norm_num [zenY, bezier3]

theorem zenY_one : zenY 1 = 1 := by norm_num [zenY, bezier3]

theorem zenX_strictMono : StrictMono zenX := by
  intro s t hst
  simp only [zenX, bezier3]
  nlinarith [sq_nonneg (2 * s + t - 3 / 4), sq_nonneg (t - 1 / 4), sq_nonneg (s - t)]

theorem zenX_continuous : Continuous zenX := by
  unfold zenX bezier3
  fun_prop

theorem zenX_surjOn (t : ℝ) (ht : t ∈ Set.Icc (0:ℝ) 1) :
    ∃ s ∈ Set.Icc (0:ℝ) 1, zenX s = t := by
  have hiv := intermediate_value_Icc (by norm_num : (0:ℝ) ≤ 1)
    zenX_continuous.continuousOn
  rw [zenX_zero, zenX_one] at hiv
  obtain ⟨s, hs, hxs⟩ := hiv ht
  exact ⟨s, hs, hxs⟩

open Classical in
/-- The inverse of the Bezier x-coordinate on `[0, 1]`: CSS bezier easing
evaluates `y` at the parameter whose `x` equals the input progress
(the implementation approximates this root numerically; we use the exact
mathematical solution). -/
noncomputable def zenInvX (t : ℝ) : ℝ :=
  if h : ∃ s ∈ Set.Icc (0:ℝ) 1, zenX s = t then h.choose else 0

theorem zenInvX_spec (t : ℝ) (ht : t ∈ Set.Icc (0:ℝ) 1) :
    zenInvX t ∈ Set.Icc (0:ℝ) 1 ∧ zenX (zenInvX t) = t := by
  have h : ∃ s ∈ Set.Icc (0:ℝ) 1, zenX s = t := zenX_surjOn t ht
  unfold zenInvX
  rw [dif_pos h]
  exact ⟨h.choose_spec.1, h.choose_spec.2⟩

/-- The easing function `Easing.bezier(0.25, 0.1, 0.25, 1.0)` used by
ZenProgressBar. -/
noncomputable def zenEase (t : ℝ) : ℝ := zenY (zenInvX t)

theorem zenY_monoOn : MonotoneOn zenY (Set.Icc (0:ℝ) 1) := by
  intro s hs t ht hst
  obtain ⟨hs0, hs1⟩ := Set.mem_Icc.1 hs
  obtain ⟨ht0, ht1⟩ := Set.mem_Icc.1 ht
  simp only [zenY, bezier3]
  nlinarith [mul_nonneg (sub_nonneg.2 hst) (mul_nonneg (sub_nonneg.2 hs1) hs0),
    mul_nonneg (sub_nonneg.2 hst) (mul_nonneg (sub_nonneg.2 ht1) ht0),
    mul_nonneg (sub_nonneg.2 hst) (mul_nonneg (sub_nonneg.2 hs1) ht0),
    mul_nonneg (sub_nonneg.2 hst) (mul_nonneg (sub_nonneg.2 ht1) hs0),
    mul_nonneg (sub_nonneg.2 hst) (sub_nonneg.2 hs1),
    mul_nonneg (sub_nonneg.2 hst) (sub_nonneg.2 ht1)]

theorem zenEase_one : zenEase 1 = 1 := by
  have h := zenInvX_spec 1 (by norm_num)
  have hinj : zenInvX 1 = 1 := by
    apply zenX_strictMono.injective
    rw [h.2, zenX_one]
  rw [zenEase, hinj, zenY_one]

theorem zenEase_mem (t : ℝ) (ht : t ∈ Set.Icc (0:ℝ) 1) :
    zenEase t ∈ Set.Icc (0:ℝ) 1 := by
  obtain ⟨hmem, _⟩ := zenInvX_spec t ht
  constructor
  · have := zenY_monoOn (Set.mem_Icc.2 ⟨le_refl 0, by norm_num⟩) hmem
      (Set.mem_Icc.1 hmem).1
    rw [zenY_zero] at this
    exact this
  · have := zenY_monoOn hmem (Set.mem_Icc.2 ⟨by norm_num, le_refl 1⟩)
      (Set.mem_Icc.1 hmem).2
    rw [zenY_one] at this
    exact this

theorem zenEase_monoOn : MonotoneOn zenEase (Set.Icc (0:ℝ) 1) := by
  intro t1 h1 t2 h2 h12
  obtain ⟨hm1, hx1⟩ := zenInvX_spec t1 h1
  obtain ⟨hm2, hx2⟩ := zenInvX_spec t2 h2
  have hle : zenInvX t1 ≤ zenInvX t2 := by
    have : zenX (zenInvX t1) ≤ zenX (zenInvX t2) := by rw [hx1, hx2]; exact h12
    exact zenX_strictMono.le_iff_le.1 this
  exact zenY_monoOn hm1 hm2 hle

namespace Remotion

/-- Left clamping step of `interpolate`: `if x < a then a else x`. -/
def clampLow {K : Type} [LinearOrderedField K] (a x : K) : K :=
  if x < a then a else x

/-- Right clamping step of `interpolate`: `if b < x then b else x`. -/
def clampHigh {K : Type} [LinearOrderedField K] (b x : K) : K :=
  if b < x then b else x

theorem interpolate_clamp_clamp_eq {K : Type} [LinearOrderedField K]
    (e : K → K) (a b c d x : K) :
    interpolate e Extrapolate.clamp Extrapolate.clamp a b c d x =
      e ((clampHigh b (clampLow a x) - a) / (b - a)) * (d - c) + c := by
  rw [interpolate_clamp_clamp]
  rfl

theorem interpolate_extend_clamp_eq {K : Type} [LinearOrderedField K]
    (e : K → K) (a b c d x : K) :
    interpolate e Extrapolate.extend Extrapolate.clamp a b c d x =
      e ((clampHigh b x - a) / (b - a)) * (d - c) + c := by
  rw [interpolate_extend_clamp]
  rfl

theorem le_clampLow {K : Type} [LinearOrderedField K] (a x : K) :
    a ≤ clampLow a x := by
  unfold clampLow
  split_ifs with h
  · exact le_refl a
  · exact le_of_not_lt h

theorem clampHigh_le {K : Type} [LinearOrderedField K] (b x : K) :
    clampHigh b x ≤ b := by
  unfold clampHigh
  split_ifs with h
  · exact le_refl b
  · exact le_of_not_lt h

theorem clampLow_eq {K : Type} [LinearOrderedField K] {a x : K} (h : a ≤ x) :
    clampLow a x = x := by
  unfold clampLow
  exact if_neg (not_lt.2 h)

theorem clampHigh_eq {K : Type} [LinearOrderedField K] {b x : K} (h : x ≤ b) :
    clampHigh b x = x := by
  unfold clampHigh
  exact if_neg (not_lt.2 h)

theorem clampLow_eq_max {K : Type} [LinearOrderedField K] (a x : K) :
    clampLow a x = max a x := by
  unfold clampLow
  rcases lt_or_le x a with h | h
  · rw [if_pos h, max_eq_left (le_of_lt h)]
  · rw [if_neg (not_lt.2 h), max_eq_right h]

theorem clampHigh_eq_min {K : Type} [LinearOrderedField K] (b x : K) :
    clampHigh b x = min b x := by
  unfold clampHigh
  rcases lt_or_le b x with h | h
  · rw [if_pos h, min_eq_left (le_of_lt h)]
  · rw [if_neg (not_lt.2 h), min_eq_right h]

theorem clampLow_mono {K : Type} [LinearOrderedField K] (a : K) {x y : K}
    (h : x ≤ y) : clampLow a x ≤ clampLow a y := by
  rw [clampLow_eq_max, clampLow_eq_max]
  exact max_le_max (le_refl a) h

theorem clampHigh_mono {K : Type} [LinearOrderedField K] (b : K) {x y : K}
    (h : x ≤ y) : clampHigh b x ≤ clampHigh b y := by
  rw [clampHigh_eq_min, clampHigh_eq_min]
  exact min_le_min (le_refl b) h

theorem le_clampHigh_clampLow {K : Type} [LinearOrderedField K] {a b : K}
    (x : K) (hab : a ≤ b) : a ≤ clampHigh b (clampLow a x) := by
  unfold clampHigh
  split_ifs with h
  · exact hab
  · exact le_clampLow a x

end Remotion

namespace SegmentedCountdown

/-- compositionConfig constants: durationInSeconds 30 at fps 30, and the
default ticksCount prop. -/
def fps : ℤ := 30

def durationInSeconds : ℤ := 30

def durationInFrames : ℤ := durationInSeconds * fps

def ticksCount : ℕ := 100

/-- `remainingSeconds = Math.ceil(interpolate(frame, [0, durationInFrames],
[30, 0], {extrapolateLeft: clamp, extrapolateRight: clamp}))`. -/
def remainingSeconds (D f : ℤ) : ℤ :=
  ⌈Remotion.interpolate id Remotion.Extrapolate.clamp Remotion.Extrapolate.clamp
    0 (D : ℚ) 30 0 (f : ℚ)⌉

/-- `progress = interpolate(frame, [0, durationInFrames], [1, 0], {clamp,
clamp})`. -/
def progress (D f : ℤ) : ℚ :=
  Remotion.interpolate id Remotion.Extrapolate.clamp Remotion.Extrapolate.clamp
    0 (D : ℚ) 1 0 (f : ℚ)

/-- `currentTickThreshold = progress * ticksCount`. -/
def currentTickThreshold (D : ℤ) (tc : ℕ) (f : ℤ) : ℚ := progress D f * tc

/-- Tick angles: `(360 / ticksCount) * i`. -/
def tickAngle (tc : ℕ) (i : ℕ) : ℚ := 360 / (tc : ℚ) * i

/-- Opacity of the i-th active tick: `diff = currentTickThreshold - i;
if diff > 1 then 1 else if diff < 0 then 0 else diff`. -/
def tickOpacity (D : ℤ) (tc : ℕ) (f : ℤ) (i : ℕ) : ℚ :=
  let diff := currentTickThreshold D tc f - i
  if 1 < diff then 1 else if diff < 0 then 0 else diff

end SegmentedCountdown

namespace CleanProgressBar

/-- compositionConfig: durationInFrames 300 at fps 30. -/
def durationInFrames : ℤ := 300

/-- `progress = interpolate(frame, [0, durationInFrames - 1], [0, 1],
{extrapolateRight: clamp})` (left extrapolation is the extend default). -/
def progress (D f : ℤ) : ℚ :=
  Remotion.interpolate id Remotion.Extrapolate.extend Remotion.Extrapolate.clamp
    0 ((D : ℚ) - 1) 0 1 (f : ℚ)

/-- `percentage = Math.floor(progress * 100)`. -/
def percentage (D f : ℤ) : ℤ := ⌊progress D f * 100⌋

/-- The fill width in percent: the style is `width: `${progress * 100}%``. -/
def fillWidthPercent (D f : ℤ) : ℚ := progress D f * 100

end CleanProgressBar

namespace NeonSaberCountdown

/-- The sequencer of the main component:
`currentSecondIndex = Math.floor(frame / fps)`,
`displayNumber = startNumber - currentSecondIndex`,
`localFrame = frame % fps`, and the guard
`if (displayNumber < 0) return <AbsoluteFill black />` (no digit rendered).
The rendered digit layer is `some (displayNumber, localFrame)` and the bare
black fill is `none`. -/
def render (startNumber fps frame : ℤ) : Option (ℤ × ℤ) :=
  let currentSecondIndex := Int.fdiv frame fps
  let displayNumber := startNumber - currentSecondIndex
  let localFrame := Int.tmod frame fps
  if displayNumber < 0 then none else some (displayNumber, localFrame)

end NeonSaberCountdown

namespace ZenProgressBar

/-- compositionConfig: durationInSeconds 12 at fps 30. -/
def fps : ℤ := 30

def durationInSeconds : ℤ := 12

def durationInFrames : ℤ := durationInSeconds * fps

/-- `progressPercent = interpolate(frame, [0, durationInFrames], [0, 100],
{easing: Easing.bezier(0.25, 0.1, 0.25, 1.0), extrapolateRight: clamp})`. -/
noncomputable def progressPercent (D f : ℤ) : ℝ :=
  Remotion.interpolate zenEase Remotion.Extrapolate.extend
    Remotion.Extrapolate.clamp 0 (D : ℝ) 0 100 (f : ℝ)

/-- `breathWave = Math.sin(frame / 30)`. -/
noncomputable def breathWave (f : ℤ) : ℝ := Real.sin ((f : ℝ) / 30)

/-- `textOpacity = interpolate(breathWave, [-1, 1], [0.7, 1])`. -/
noncomputable def textOpacity (f : ℤ) : ℝ :=
  Remotion.interpolate id Remotion.Extrapolate.extend Remotion.Extrapolate.extend
    (-1) 1 0.7 1 (breathWave f)

end ZenProgressBar

namespace NeonRecIndicator

/-- `t = (frame / cycleDurationFrames) * Math.PI * 2` with
`cycleDurationFrames = 60`; `opacity = interpolate(Math.sin(t), [-1, 1],
[0.3, 1.0])`. -/
noncomputable def opacity (f : ℤ) : ℝ :=
  Remotion.interpolate id Remotion.Extrapolate.extend Remotion.Extrapolate.extend
    (-1) 1 0.3 1.0 (Real.sin ((f : ℝ) / 60 * Real.pi * 2))

end NeonRecIndicator

namespace NeonLiveIndicator

/-- Identical pulse as NeonRecIndicator: `cycleDurationFrames = 60`,
`opacity = interpolate(Math.sin(t), [-1, 1], [0.3, 1.0])`. -/
noncomputable def opacity (f : ℤ) : ℝ :=
  Remotion.interpolate id Remotion.Extrapolate.extend Remotion.Extrapolate.extend
    (-1) 1 0.3 1.0 (Real.sin ((f : ℝ) / 60 * Real.pi * 2))

end NeonLiveIndicator

namespace NeonEqualizer

def BAR_COUNT : ℕ := 30

def SEGMENT_COUNT : ℕ := 15

/-- `getBarHeight(index)`: `t = (frame / durationInFrames) * PI * 2`;
three waves `sin(t*2 + offset)`, `sin(t*4 + offset*1.5)`, `cos(t*6 + index)`
with `offset = index * 0.5`; `raw = w1 + w2*0.5 + w3*0.3`; result
`interpolate(raw, [-2, 2], [0.1, 1], {clamp, clamp})`. -/
noncomputable def getBarHeight (D f : ℤ) (index : ℕ) : ℝ :=
  let t := ((f : ℝ) / (D : ℝ)) * Real.pi * 2
  let offset := (index : ℝ) * 0.5
  let w1 := Real.sin (t * 2 + offset)
  let w2 := Real.sin (t * 4 + offset * 1.5)
  let w3 := Real.cos (t * 6 + (index : ℝ))
  let raw := w1 + w2 * 0.5 + w3 * 0.3
  Remotion.interpolate id Remotion.Extrapolate.clamp Remotion.Extrapolate.clamp
    (-2) 2 0.1 1 raw

/-- `activeSegments = Math.ceil(intensity * SEGMENT_COUNT)`. -/
noncomputable def activeSegments (D f : ℤ) (index : ℕ) : ℤ :=
  ⌈getBarHeight D f index * (SEGMENT_COUNT : ℝ)⌉

/-- Number of segments drawn lit in `renderBar`: segment `i` is on iff
`i < activeSegments`. -/
noncomputable def litSegments (D f : ℤ) (index : ℕ) : ℕ :=
  ((Finset.range SEGMENT_COUNT).filter
    (fun i : ℕ => (i : ℤ) < activeSegments D f index)).card

end NeonEqualizer

namespace FallingHeartsEmoji

def HEART_COUNT : ℕ := 50

def COLORS : List String := ["#FF2400", "#FF1493", "#FFB6C1"]

def width : ℚ := 3840

def height : ℚ := 2160

def fps : ℤ := 30

def durationInSeconds : ℤ := 10

def durationInFrames : ℤ := durationInSeconds * fps

def LOOP_HEIGHT : ℚ := height + 400

/-- The color index `Math.floor(random(seed + 2) * COLORS.length)`. -/
def colorIndex (seed : ℕ) : ℤ :=
  ⌊Remotion.random (seed + 2) * (COLORS.length : ℚ)⌋

structure HeartParticle where
  id : ℕ
  x : ℚ
  size : ℚ
  color : String
  speedMultiplier : ℚ
  swayAmplitude : ℚ
  swayPhase : ℝ
  rotationSpeed : ℚ
  rotationPhase : ℝ
  startYOffset : ℚ

/-- The particle built for index `i` inside the `hearts` useMemo: every
field is derived from the constant seeds `i .. i + 7` via the seeded
`random`; no field depends on the frame. -/
noncomputable def mkHeart (i : ℕ) : HeartParticle :=
  let seed := i
  { id := i
    x := Remotion.random seed * 1.2 - 0.1
    size := 40 + Remotion.random (seed + 1) * 80
    color := COLORS.getD (colorIndex seed).toNat ""
    speedMultiplier := 1
    swayAmplitude := 50 + Remotion.random (seed + 3) * 100
    swayPhase := (Remotion.random (seed + 4) : ℝ) * Real.pi * 2
    rotationSpeed := (Remotion.random (seed + 5) - 0.5) * 60
    rotationPhase := (Remotion.random (seed + 6) : ℝ) * Real.pi * 2
    startYOffset := Remotion.random (seed + 7) * LOOP_HEIGHT }

/-- The memoized `hearts` array (deps `[]`): 50 particles. -/
noncomputable def hearts : List HeartParticle :=
  (List.range HEART_COUNT).map mkHeart

/-- The inline style computed for one heart at one frame: the transform
`translate(finalX px, finalY px) rotate(rot deg)` plus color, font size and
opacity. -/
structure HeartStyle where
  finalX : ℝ
  finalY : ℚ
  rot : ℝ
  color : String
  fontSize : ℚ
  opacity : ℚ

/-- Per-heart render math: `progress = frame / durationInFrames`;
`rawY = startYOffset + progress * (LOOP_HEIGHT * speedMultiplier)`;
`wrappedY = rawY % LOOP_HEIGHT`; `finalY = wrappedY - 200`;
`sway = sin(progress * PI * 2 + swayPhase) * swayAmplitude`;
`finalX = x * width + sway`;
`rot = sin(progress * PI * 2 + rotationPhase) * rotationSpeed`. -/
noncomputable def renderHeart (f : ℤ) (heart : HeartParticle) : HeartStyle :=
  let progress : ℚ := (f : ℚ) / (durationInFrames : ℚ)
  let totalDistance := LOOP_HEIGHT * heart.speedMultiplier
  let rawY := heart.startYOffset + progress * totalDistance
  let wrappedY := jsMod rawY LOOP_HEIGHT
  let finalY := wrappedY - 200
  let sway := Real.sin ((progress : ℝ) * Real.pi * 2 + heart.swayPhase) *
    (heart.swayAmplitude : ℝ)
  let finalX := ((heart.x * width : ℚ) : ℝ) + sway
  let rot := Real.sin ((progress : ℝ) * Real.pi * 2 + heart.rotationPhase) *
    (heart.rotationSpeed : ℝ)
  { finalX := finalX
    finalY := finalY
    rot := rot
    color := heart.color
    fontSize := heart.size
    opacity := 0.85 }

/-- One React render of the component with an explicit useMemo cache: the
hearts list is taken from the cache when present (deps `[]` never change)
and computed otherwise; the new cache holds the list that was used. -/
noncomputable def renderFrame (cache : Option (List HeartParticle)) (f : ℤ) :
    List HeartStyle × Option (List HeartParticle) :=
  let hs := cache.getD hearts
  (hs.map (renderHeart f), some hs)

/-- A run of the component over a sequence of frames, threading the memo
cache from one render to the next. -/
noncomputable def renderRun :
    Option (List HeartParticle) → List ℤ → List (List HeartStyle)
  | _, [] => []
  | cache, f :: fs =>
    let r := renderFrame cache f
    r.1 :: renderRun r.2 fs

/-- The pure per-frame output: what a render with a warm (or cold) cache
produces at frame `f`. -/
noncomputable def pureRender (f : ℤ) : List HeartStyle :=
  hearts.map (renderHeart f)

end FallingHeartsEmoji

namespace NeonEKG

def fps : ℤ := 30

def width : ℝ := 3840

def height : ℝ := 2160

structure EKGProps where
  gridSize : ℚ
  lineColor : String
  gridColor : String
  beatFrequency : ℝ
  flatlineStart : ℝ

def defaultProps : EKGProps :=
  { gridSize := 100
    lineColor := "#00FF00"
    gridColor := "#003300"
    beatFrequency := 30
    flatlineStart := 210 }

/-- The PQRST amplitude of the `points` useMemo (alive phase):
`beatProgress = (tFrame % beatFrequency) / beatFrequency` and the piecewise
P/Q/R/S/T waveform. -/
noncomputable def aliveAmp (beatFrequency tFrame : ℝ) : ℝ :=
  let beatProgress := jsModR tFrame beatFrequency / beatFrequency
  if 0.1 < beatProgress ∧ beatProgress < 0.2 then
    -30 * Real.sin ((beatProgress - 0.1) * Real.pi * 10)
  else if 0.4 < beatProgress ∧ beatProgress < 0.45 then 50
  else if 0.45 ≤ beatProgress ∧ beatProgress < 0.5 then -350
  else if 0.5 ≤ beatProgress ∧ beatProgress < 0.55 then 80
  else if 0.7 < beatProgress ∧ beatProgress < 0.85 then
    -50 * Real.sin ((beatProgress - 0.7) * Real.pi * 6)
  else 0

/-- The `points` useMemo: iterate `i = 0, 5, ..., 1995` (step 5 up to the
2000px tail), `x = frame * 15 - i`, break when `x < 0`; in the alive phase
(`tFrame = x / 15 < flatlineStart`) push the PQRST amplitude, in the dead
phase push `(Math.random() - 0.5) * 5`.  `Math.random` is modelled as an
oracle `rng` indexed by the loop iteration. -/
noncomputable def points (rng : ℕ → ℝ) (frame : ℤ) (p : EKGProps) :
    List (ℝ × ℝ) :=
  let tail : List (ℕ × ℝ) :=
    (List.range 400).map (fun k : ℕ => (k, (frame : ℝ) * 15 - 5 * (k : ℝ)))
  (tail.takeWhile (fun q => decide (0 ≤ q.2))).map (fun q =>
    let tFrame := q.2 / 15
    let amplitude :=
      if tFrame < p.flatlineStart then aliveAmp p.beatFrequency tFrame
      else (rng q.1 - 0.5) * 5
    (q.2, amplitude))

/-- The y-value of the scrolling view at time `tFrame`: the beat logic of
`polylinePoints` (breakpoints 0.1/0.2, 0.4/0.43, 0.43/0.47, 0.47/0.5,
0.6/0.75) in the alive phase and `sin(tFrame) * 2` in the flatline phase. -/
noncomputable def polyY (p : EKGProps) (tFrame : ℝ) : ℝ :=
  if tFrame < p.flatlineStart then
    let beatProgress := jsModR tFrame p.beatFrequency / p.beatFrequency
    if 0.1 < beatProgress ∧ beatProgress < 0.2 then
      -30 * Real.sin ((beatProgress - 0.1) * Real.pi * 10)
    else if 0.4 < beatProgress ∧ beatProgress < 0.43 then 50
    else if 0.43 ≤ beatProgress ∧ beatProgress < 0.47 then -400
    else if 0.47 ≤ beatProgress ∧ beatProgress < 0.5 then 80
    else if 0.6 < beatProgress ∧ beatProgress < 0.75 then
      -60 * Real.sin ((beatProgress - 0.6) * Real.pi * 6)
    else 0
  else Real.sin tFrame * 2

/-- The `polylinePoints` useMemo: for `x = 0, 10, ..., 3840` (up to the
composition width), `tFrame = (frame * 20 - (width - x)) / 20`; negative
times are skipped, otherwise the point `(x, height / 2 + y)` is emitted. -/
noncomputable def polylinePoints (frame : ℤ) (p : EKGProps) : List (ℝ × ℝ) :=
  (List.range 385).filterMap (fun k =>
    let x : ℝ := 10 * k
    let timeOffset := width - x
    let visualTime := (frame : ℝ) * 20 - timeOffset
    let tFrame := visualTime / 20
    if tFrame < 0 then none
    else some (x, height / 2 + polyY p tFrame))

/-- The markup returned by NeonEKG: background fill, grid layer, and the
polyline with its stroke color.  Only `polylinePoints` reaches the markup. -/
structure EKGOutput where
  backgroundColor : String
  gridSize : ℚ
  gridColor : String
  polyline : List (ℝ × ℝ)
  stroke : String

/-- One evaluation of the NeonEKG body: the `points` array is computed
(consuming the `Math.random` oracle, exactly as the source does) but is
never referenced by the returned markup, which renders only
`polylinePoints`. -/
noncomputable def render (rng : ℕ → ℝ) (frame : ℤ) (p : EKGProps) : EKGOutput :=
  let _ := points rng frame p
  { backgroundColor := "#000500"
    gridSize := p.gridSize
    gridColor := p.gridColor
    polyline := polylinePoints frame p
    stroke := p.lineColor }

end NeonEKG

/-- C1: the rendered visual description of NeonEKG is a deterministic
function of the frame and the props: although the render body computes the
intermediate `points` array using `Math.random()` (modelled by the oracle
`rng`), no nondeterministic value reaches the returned markup — only the
deterministic `polylinePoints` is rendered, so two evaluations at the same
frame with the same props, under arbitrary different random oracles,
produce identical output. -/
theorem neonEKG_render_deterministic (rng rng' : ℕ → ℝ) (frame : ℤ)
    (p : NeonEKG.EKGProps) :
    NeonEKG.render rng frame p = NeonEKG.render rng' frame p := rfl

/-- C7: the pulsing pill opacity of NeonRecIndicator and NeonLiveIndicator,
`interpolate(sin((frame / 60) * 2 * PI), [-1, 1], [0.3, 1.0])`, always lies
in [0.3, 1.0], and is periodic in the frame with period 60. -/
theorem pulse_opacity_range_and_period (f : ℤ) :
    0.3 ≤ NeonRecIndicator.opacity f ∧ NeonRecIndicator.opacity f ≤ 1 ∧
    NeonRecIndicator.opacity (f + 60) = NeonRecIndicator.opacity f ∧
    0.3 ≤ NeonLiveIndicator.opacity f ∧ NeonLiveIndicator.opacity f ≤ 1 ∧
    NeonLiveIndicator.opacity (f + 60) = NeonLiveIndicator.opacity f := by
  have hlr : ∀ g : ℤ, NeonLiveIndicator.opacity g = NeonRecIndicator.opacity g :=
    fun _ => rfl
  have hval : ∀ g : ℤ, NeonRecIndicator.opacity g =
      (Real.sin ((g : ℝ) / 60 * Real.pi * 2) + 1) / 2 * (1.0 - 0.3) + 0.3 := by
    intro g
    unfold NeonRecIndicator.opacity
    rw [Remotion.interpolate_extend_extend]
    simp only [id_eq]
    ring
  have hper : ∀ g : ℤ, Real.sin (((g + 60 : ℤ) : ℝ) / 60 * Real.pi * 2) =
      Real.sin ((g : ℝ) / 60 * Real.pi * 2) := by
    intro g
    have harg : ((g + 60 : ℤ) : ℝ) / 60 * Real.pi * 2 =
        (g : ℝ) / 60 * Real.pi * 2 + 2 * Real.pi := by
      push_cast
      ring
    rw [harg]
    exact Real.sin_periodic _
  have hlo := Real.neg_one_le_sin ((f : ℝ) / 60 * Real.pi * 2)
  have hhi := Real.sin_le_one ((f : ℝ) / 60 * Real.pi * 2)
  refine ⟨?_, ?_, ?_, ?_, ?_, ?_⟩
  · rw [hval f]; linarith
  · rw [hval f]; linarith
  · rw [hval, hval, hper]
  · rw [hlr, hval f]; linarith
  · rw [hlr, hval f]; linarith
  · rw [hlr, hlr, hval, hval, hper]

/-- C9: in NeonSaberCountdown, for every non-negative integer frame and
positive fps: the displayed number is `startNumber - Math.floor(frame / fps)`
(floor division, which agrees with the mathematical floor of the rational
quotient), the per-digit localFrame `frame % fps` lies in [0, fps), and
whenever the countdown is exhausted (`displayNumber < 0`) the component
returns only the bare black AbsoluteFill with no digit rendered. -/
theorem neonSaber_sequencer (startNumber fps frame : ℤ)
    (hf : 0 ≤ frame) (hfps : 0 < fps) :
    0 ≤ Int.tmod frame fps ∧ Int.tmod frame fps < fps ∧
    Int.fdiv frame fps = ⌊(frame : ℚ) / (fps : ℚ)⌋ ∧
    (startNumber - Int.fdiv frame fps < 0 →
      NeonSaberCountdown.render startNumber fps frame = none) ∧
    (0 ≤ startNumber - Int.fdiv frame fps →
      NeonSaberCountdown.render startNumber fps frame =
        some (startNumber - Int.fdiv frame fps, Int.tmod frame fps)) := by
  have hb : (0 : ℤ) ≤ fps := le_of_lt hfps
  have htm : Int.tmod frame fps = frame % fps := Int.tmod_eq_emod hf hb
  have h1 : fps * (frame / fps) + frame % fps = frame := Int.ediv_add_emod frame fps
  have h2 : 0 ≤ frame % fps := Int.emod_nonneg frame (ne_of_gt hfps)
  have h3 : frame % fps < fps := Int.emod_lt_of_pos frame hfps
  have hfd : Int.fdiv frame fps = frame / fps := Int.fdiv_eq_ediv frame hb
  have hfloor : ⌊(frame : ℚ) / (fps : ℚ)⌋ = frame / fps := by
    rw [Int.floor_eq_iff]
    have hfq : (0 : ℚ) < (fps : ℚ) := by exact_mod_cast hfps
    constructor
    · rw [le_div_iff₀ hfq]
      have : (frame / fps) * fps ≤ frame := by
        rw [mul_comm]
        omega
      exact_mod_cast this
    · rw [div_lt_iff₀ hfq]
      have : frame < (frame / fps + 1) * fps := by
        have := Int.lt_ediv_add_one_mul_self frame hfps
        linarith [this]
      exact_mod_cast this
  refine ⟨by omega, by omega, by rw [hfd, hfloor], ?_, ?_⟩
  · intro hneg
    unfold NeonSaberCountdown.render
    exact if_pos hneg
  · intro hpos
    unfold NeonSaberCountdown.render
    exact if_neg (by omega)

/-- C9 witness: the sequencer theorem instantiated at startNumber 5,
fps 30, frame 75. -/
theorem neonSaber_sequencer_witness :
    0 ≤ Int.tmod 75 30 ∧ Int.tmod 75 30 < 30 ∧
    Int.fdiv 75 30 = ⌊(75 : ℚ) / (30 : ℚ)⌋ ∧
    ((5 : ℤ) - Int.fdiv 75 30 < 0 →
      NeonSaberCountdown.render 5 30 75 = none) ∧
    (0 ≤ (5 : ℤ) - Int.fdiv 75 30 →
      NeonSaberCountdown.render 5 30 75 =
        some (5 - Int.fdiv 75 30, Int.tmod 75 30)) :=
  neonSaber_sequencer 5 30 75 (by norm_num) (by norm_num)

theorem clampedQ_val (D : ℤ) (c d x : ℚ) :
    Remotion.interpolate id Remotion.Extrapolate.clamp Remotion.Extrapolate.clamp
      0 (D : ℚ) c d x =
      c + (d - c) * (Remotion.clampHigh (D : ℚ) (Remotion.clampLow 0 x) / (D : ℚ)) := by
  rw [Remotion.interpolate_clamp_clamp_eq]
  simp only [id_eq]
  ring

theorem clampedQ_mem (D : ℤ) (hD : 0 < D) (x : ℚ) :
    0 ≤ Remotion.clampHigh (D : ℚ) (Remotion.clampLow 0 x) ∧
    Remotion.clampHigh (D : ℚ) (Remotion.clampLow 0 x) ≤ (D : ℚ) := by
  have hDq : (0 : ℚ) ≤ (D : ℚ) := by exact_mod_cast le_of_lt hD
  exact ⟨Remotion.le_clampHigh_clampLow x hDq, Remotion.clampHigh_le _ _⟩

theorem clampedQ_eq_self (D : ℤ) {x : ℚ} (h0 : 0 ≤ x) (hd : x ≤ (D : ℚ)) :
    Remotion.clampHigh (D : ℚ) (Remotion.clampLow 0 x) = x := by
  rw [Remotion.clampLow_eq h0, Remotion.clampHigh_eq hd]

/-- C4: in SegmentedCountdown the displayed `remainingSeconds` is the
ceiling of the clamped linear interpolation of the frame from
[0, durationInFrames] to [30, 0]; it lies in [0, 30], equals 30 at frame 0,
equals 0 at frame durationInFrames, and is non-increasing in the frame. -/
theorem segmented_remainingSeconds_props (D f g : ℤ) (hD : 0 < D) (hfg : f ≤ g) :
    0 ≤ SegmentedCountdown.remainingSeconds D f ∧
    SegmentedCountdown.remainingSeconds D f ≤ 30 ∧
    SegmentedCountdown.remainingSeconds D 0 = 30 ∧
    SegmentedCountdown.remainingSeconds D D = 0 ∧
    SegmentedCountdown.remainingSeconds D g ≤ SegmentedCountdown.remainingSeconds D f := by
  have hDq : (0 : ℚ) < (D : ℚ) := by exact_mod_cast hD
  have hval : ∀ x : ℚ,
      Remotion.interpolate id Remotion.Extrapolate.clamp Remotion.Extrapolate.clamp
        0 (D : ℚ) 30 0 x =
      30 + (0 - 30) * (Remotion.clampHigh (D : ℚ) (Remotion.clampLow 0 x) / (D : ℚ)) :=
    fun x => clampedQ_val D 30 0 x
  have hbound : ∀ x : ℚ,
      0 ≤ Remotion.interpolate id Remotion.Extrapolate.clamp Remotion.Extrapolate.clamp
        0 (D : ℚ) 30 0 x ∧
      Remotion.interpolate id Remotion.Extrapolate.clamp Remotion.Extrapolate.clamp
        0 (D : ℚ) 30 0 x ≤ 30 := by
    intro x
    obtain ⟨hm0, hm1⟩ := clampedQ_mem D hD x
    have hq0 : 0 ≤ Remotion.clampHigh (D : ℚ) (Remotion.clampLow 0 x) / (D : ℚ) :=
      div_nonneg hm0 (le_of_lt hDq)
    have hq1 : Remotion.clampHigh (D : ℚ) (Remotion.clampLow 0 x) / (D : ℚ) ≤ 1 :=
      (div_le_one hDq).2 hm1
    rw [hval]
    constructor <;> linarith
  refine ⟨?_, ?_, ?_, ?_, ?_⟩
  · exact Int.ceil_nonneg (hbound (f : ℚ)).1
  · exact Int.ceil_le.2 (by exact_mod_cast (hbound (f : ℚ)).2)
  · show (⌈_⌉ : ℤ) = 30
    rw [show (((0 : ℤ) : ℚ)) = (0 : ℚ) by norm_num, hval,
      clampedQ_eq_self D (le_refl 0) (le_of_lt hDq)]
    norm_num
  · show (⌈_⌉ : ℤ) = 0
    rw [hval, clampedQ_eq_self D (le_of_lt hDq) (le_refl _),
      div_self (ne_of_gt hDq)]
    norm_num
  · apply Int.ceil_le_ceil
    rw [hval, hval]
    have hmono : Remotion.clampHigh (D : ℚ) (Remotion.clampLow 0 (f : ℚ)) ≤
        Remotion.clampHigh (D : ℚ) (Remotion.clampLow 0 (g : ℚ)) :=
      Remotion.clampHigh_mono _ (Remotion.clampLow_mono _ (by exact_mod_cast hfg))
    have hdiv : Remotion.clampHigh (D : ℚ) (Remotion.clampLow 0 (f : ℚ)) / (D : ℚ) ≤
        Remotion.clampHigh (D : ℚ) (Remotion.clampLow 0 (g : ℚ)) / (D : ℚ) := by
      gcongr
    linarith

/-- C4 witness: the remainingSeconds theorem instantiated at
durationInFrames 900 (the composition's 30 s at 30 fps), frames 3 and 5. -/
theorem segmented_remainingSeconds_witness :
    SegmentedCountdown.remainingSeconds 900 0 = 30 :=
  (segmented_remainingSeconds_props 900 3 5 (by norm_num) (by norm_num)).2.2.1

/-- C5: in SegmentedCountdown, for frames in [0, durationInFrames] and
active tick indices i in [0, ticksCount), the tick opacity lies in [0, 1],
equals 1 when `currentTickThreshold - i > 1`, equals 0 when
`currentTickThreshold - i < 0`, equals `currentTickThreshold - i`
otherwise, and for fixed i is non-increasing as the frame increases. -/
theorem segmented_tickOpacity_props (D : ℤ) (tc : ℕ) (f g : ℤ) (i : ℕ)
    (hD : 0 < D) (hf : 0 ≤ f) (hfD : f ≤ D) (hi : i < tc)
    (hfg : f ≤ g) (hgD : g ≤ D) :
    0 ≤ SegmentedCountdown.tickOpacity D tc f i ∧
    SegmentedCountdown.tickOpacity D tc f i ≤ 1 ∧
    (1 < SegmentedCountdown.currentTickThreshold D tc f - i →
      SegmentedCountdown.tickOpacity D tc f i = 1) ∧
    (SegmentedCountdown.currentTickThreshold D tc f - i < 0 →
      SegmentedCountdown.tickOpacity D tc f i = 0) ∧
    (0 ≤ SegmentedCountdown.currentTickThreshold D tc f - i →
      SegmentedCountdown.currentTickThreshold D tc f - i ≤ 1 →
      SegmentedCountdown.tickOpacity D tc f i =
        SegmentedCountdown.currentTickThreshold D tc f - i) ∧
    SegmentedCountdown.tickOpacity D tc g i ≤
      SegmentedCountdown.tickOpacity D tc f i := by
  have hthr : SegmentedCountdown.currentTickThreshold D tc g ≤
      SegmentedCountdown.currentTickThreshold D tc f := by
    unfold SegmentedCountdown.currentTickThreshold SegmentedCountdown.progress
    apply mul_le_mul_of_nonneg_right _ (by positivity : (0:ℚ) ≤ (tc : ℚ))
    rw [clampedQ_val, clampedQ_val]
    have hmono : Remotion.clampHigh (D : ℚ) (Remotion.clampLow 0 (f : ℚ)) ≤
        Remotion.clampHigh (D : ℚ) (Remotion.clampLow 0 (g : ℚ)) :=
      Remotion.clampHigh_mono _ (Remotion.clampLow_mono _ (by exact_mod_cast hfg))
    have hDq : (0 : ℚ) < (D : ℚ) := by exact_mod_cast hD
    have hdiv : Remotion.clampHigh (D : ℚ) (Remotion.clampLow 0 (f : ℚ)) / (D : ℚ) ≤
        Remotion.clampHigh (D : ℚ) (Remotion.clampLow 0 (g : ℚ)) / (D : ℚ) := by
      gcongr
    linarith
  simp only [SegmentedCountdown.tickOpacity]
  have hdfg : SegmentedCountdown.currentTickThreshold D tc g - (i : ℚ) ≤
      SegmentedCountdown.currentTickThreshold D tc f - (i : ℚ) :=
    sub_le_sub_right hthr _
  refine ⟨?_, ?_, ?_, ?_, ?_, ?_⟩
  · split_ifs with h1 h2
    · norm_num
    · norm_num
    · exact not_lt.1 h2
  · split_ifs with h1 h2
    · norm_num
    · norm_num
    · exact not_lt.1 h1
  · intro h
    rw [if_pos h]
  · intro h
    rw [if_neg (by linarith), if_pos h]
  · intro h0 h1
    rw [if_neg (not_lt.2 h1), if_neg (not_lt.2 h0)]
  · split_ifs <;> linarith

/-- C5 witness: the tick opacity theorem instantiated at
durationInFrames 900, ticksCount 100, frames 450 and 500, tick index 3. -/
theorem segmented_tickOpacity_witness :
    0 ≤ SegmentedCountdown.tickOpacity 900 100 450 3 :=
  (segmented_tickOpacity_props 900 100 450 500 3 (by norm_num) (by norm_num)
    (by norm_num) (by norm_num) (by norm_num) (by norm_num)).1

/-- C8: in CleanProgressBar, for frames in [0, durationInFrames - 1], the
progress equals the linear map of the frame over [0, durationInFrames - 1]
onto [0, 1] (clamped on the right), lies in [0, 1], is non-decreasing, and
at the last frame the progress is exactly 1, the fill width is exactly
100%, and the displayed percentage `Math.floor(progress * 100)` is exactly
100. -/
theorem cleanProgressBar_props (D f g : ℤ) (hD : 1 < D) (hf : 0 ≤ f)
    (hfg : f ≤ g) (hg : g ≤ D - 1) :
    CleanProgressBar.progress D f = (f : ℚ) / ((D : ℚ) - 1) ∧
    0 ≤ CleanProgressBar.progress D f ∧ CleanProgressBar.progress D f ≤ 1 ∧
    CleanProgressBar.progress D f ≤ CleanProgressBar.progress D g ∧
    CleanProgressBar.progress D (D - 1) = 1 ∧
    CleanProgressBar.fillWidthPercent D (D - 1) = 100 ∧
    CleanProgressBar.percentage D (D - 1) = 100 := by
  have hD1 : (0 : ℚ) < (D : ℚ) - 1 := by
    have : (1 : ℚ) < (D : ℚ) := by exact_mod_cast hD
    linarith
  have hval : ∀ x : ℚ,
      Remotion.interpolate id Remotion.Extrapolate.extend Remotion.Extrapolate.clamp
        0 ((D : ℚ) - 1) 0 1 x = Remotion.clampHigh ((D : ℚ) - 1) x / ((D : ℚ) - 1) := by
    intro x
    rw [Remotion.interpolate_extend_clamp_eq]
    simp only [id_eq]
    ring
  have hfq : (f : ℚ) ≤ (D : ℚ) - 1 := by
    have : f ≤ D - 1 := le_trans hfg hg
    have h2 : (f : ℚ) ≤ ((D - 1 : ℤ) : ℚ) := by exact_mod_cast this
    push_cast at h2
    exact h2
  have hgq : (g : ℚ) ≤ (D : ℚ) - 1 := by
    have h2 : (g : ℚ) ≤ ((D - 1 : ℤ) : ℚ) := by exact_mod_cast hg
    push_cast at h2
    exact h2
  have hpf : CleanProgressBar.progress D f = (f : ℚ) / ((D : ℚ) - 1) := by
    unfold CleanProgressBar.progress
    rw [hval, Remotion.clampHigh_eq hfq]
  have hpg : CleanProgressBar.progress D g = (g : ℚ) / ((D : ℚ) - 1) := by
    unfold CleanProgressBar.progress
    rw [hval, Remotion.clampHigh_eq hgq]
  have hplast : CleanProgressBar.progress D (D - 1) = 1 := by
    unfold CleanProgressBar.progress
    have hcast : (((D - 1 : ℤ)) : ℚ) = (D : ℚ) - 1 := by push_cast; ring
    rw [hval, hcast, Remotion.clampHigh_eq (le_refl _), div_self (ne_of_gt hD1)]
  refine ⟨hpf, ?_, ?_, ?_, hplast, ?_, ?_⟩
  · rw [hpf]
    positivity
  · rw [hpf]
    rw [div_le_one hD1]
    exact hfq
  · rw [hpf, hpg]
    have hfgq : (f : ℚ) ≤ (g : ℚ) := by exact_mod_cast hfg
    gcongr
  · unfold CleanProgressBar.fillWidthPercent
    rw [hplast]
    norm_num
  · unfold CleanProgressBar.percentage
    rw [hplast]
    norm_num

/-- C8 witness: the CleanProgressBar theorem instantiated at
durationInFrames 300 (the composition config), frames 10 and 299. -/
theorem cleanProgressBar_witness :
    CleanProgressBar.percentage 300 (300 - 1) = 100 :=
  (cleanProgressBar_props 300 10 299 (by norm_num) (by norm_num) (by norm_num)
    (by norm_num)).2.2.2.2.2.2

/-- C6: in ZenProgressBar, for every non-negative frame the progressPercent
lies in [0, 100]; it equals exactly 100 for every frame at or beyond
durationInFrames (right extrapolation is clamped); it is monotonically
non-decreasing over [0, durationInFrames] under the
Easing.bezier(0.25, 0.1, 0.25, 1.0) easing; and the breathing text opacity
`interpolate(sin(frame / 30), [-1, 1], [0.7, 1])` always lies in
[0.7, 1.0]. -/
theorem zenProgressBar_props (D : ℤ) (hD : 0 < D) :
    (∀ f : ℤ, 0 ≤ f → 0 ≤ ZenProgressBar.progressPercent D f ∧
      ZenProgressBar.progressPercent D f ≤ 100) ∧
    (∀ f : ℤ, D ≤ f → ZenProgressBar.progressPercent D f = 100) ∧
    (∀ f g : ℤ, 0 ≤ f → f ≤ g → g ≤ D →
      ZenProgressBar.progressPercent D f ≤ ZenProgressBar.progressPercent D g) ∧
    (∀ f : ℤ, 0.7 ≤ ZenProgressBar.textOpacity f ∧
      ZenProgressBar.textOpacity f ≤ 1) := by
  have hDr : (0 : ℝ) < (D : ℝ) := by exact_mod_cast hD
  have hval : ∀ x : ℝ,
      Remotion.interpolate zenEase Remotion.Extrapolate.extend
        Remotion.Extrapolate.clamp 0 (D : ℝ) 0 100 x =
      zenEase (Remotion.clampHigh (D : ℝ) x / (D : ℝ)) * 100 := by
    intro x
    rw [Remotion.interpolate_extend_clamp_eq]
    simp only [sub_zero, add_zero]
  have hmem_t : ∀ x : ℝ, 0 ≤ x →
      Remotion.clampHigh (D : ℝ) x / (D : ℝ) ∈ Set.Icc (0 : ℝ) 1 := by
    intro x hx
    constructor
    · apply div_nonneg _ (le_of_lt hDr)
      rw [Remotion.clampHigh_eq_min]
      exact le_min (le_of_lt hDr) hx
    · rw [div_le_one hDr]
      exact Remotion.clampHigh_le _ _
  refine ⟨?_, ?_, ?_, ?_⟩
  · intro f hf
    unfold ZenProgressBar.progressPercent
    rw [hval]
    have hm := zenEase_mem _ (hmem_t (f : ℝ) (by exact_mod_cast hf))
    obtain ⟨hm0, hm1⟩ := Set.mem_Icc.1 hm
    constructor
    · exact mul_nonneg hm0 (by norm_num)
    · nlinarith
  · intro f hDf
    unfold ZenProgressBar.progressPercent
    rw [hval]
    have hcl : Remotion.clampHigh (D : ℝ) (f : ℝ) = (D : ℝ) := by
      rw [Remotion.clampHigh_eq_min, min_eq_left (by exact_mod_cast hDf)]
    rw [hcl, div_self (ne_of_gt hDr), zenEase_one]
    norm_num
  · intro f g hf hfg hgD
    unfold ZenProgressBar.progressPercent
    rw [hval, hval]
    have hfr : (0 : ℝ) ≤ (f : ℝ) := by exact_mod_cast hf
    have hgr : (0 : ℝ) ≤ (g : ℝ) := le_trans hfr (by exact_mod_cast hfg)
    have ht1 := hmem_t (f : ℝ) hfr
    have ht2 := hmem_t (g : ℝ) hgr
    have hle : Remotion.clampHigh (D : ℝ) (f : ℝ) / (D : ℝ) ≤
        Remotion.clampHigh (D : ℝ) (g : ℝ) / (D : ℝ) := by
      have := Remotion.clampHigh_mono (D : ℝ)
        (show (f : ℝ) ≤ (g : ℝ) by exact_mod_cast hfg)
      gcongr
    have := zenEase_monoOn ht1 ht2 hle
    nlinarith
  · intro f
    unfold ZenProgressBar.textOpacity ZenProgressBar.breathWave
    rw [Remotion.interpolate_extend_extend]
    simp only [id_eq]
    have hlo := Real.neg_one_le_sin ((f : ℝ) / 30)
    have hhi := Real.sin_le_one ((f : ℝ) / 30)
    constructor <;> linarith

/-- C6 witness: the ZenProgressBar theorem instantiated at
durationInFrames 360 (the composition's 12 s at 30 fps), frame 400. -/
theorem zenProgressBar_witness : ZenProgressBar.progressPercent 360 400 = 100 :=
  (zenProgressBar_props 360 (by norm_num)).2.1 400 (by norm_num)

/-- C10: in NeonEqualizer, for every bar index below BAR_COUNT and every
frame, the intensity getBarHeight lies in [0.1, 1] (the three-wave sum is
mapped from [-2, 2] to [0.1, 1] with clamping on both sides), so
`activeSegments = Math.ceil(intensity * SEGMENT_COUNT)` lies in
[1, SEGMENT_COUNT] and every rendered bar lights at least 1 and at most
SEGMENT_COUNT segments. -/
theorem neonEqualizer_props (D f : ℤ) (index : ℕ) (hD : D ≠ 0)
    (hidx : index < NeonEqualizer.BAR_COUNT) :
    0.1 ≤ NeonEqualizer.getBarHeight D f index ∧
    NeonEqualizer.getBarHeight D f index ≤ 1 ∧
    1 ≤ NeonEqualizer.activeSegments D f index ∧
    NeonEqualizer.activeSegments D f index ≤ (NeonEqualizer.SEGMENT_COUNT : ℤ) ∧
    1 ≤ NeonEqualizer.litSegments D f index ∧
    NeonEqualizer.litSegments D f index ≤ NeonEqualizer.SEGMENT_COUNT := by
  have hint : 0.1 ≤ NeonEqualizer.getBarHeight D f index ∧
      NeonEqualizer.getBarHeight D f index ≤ 1 := by
    simp only [NeonEqualizer.getBarHeight]
    rw [Remotion.interpolate_clamp_clamp_eq]
    simp only [id_eq]
    have hv1 := Remotion.clampHigh_le (2 : ℝ)
      (Remotion.clampLow (-2) (Real.sin (((f : ℝ) / (D : ℝ)) * Real.pi * 2 * 2 +
        (index : ℝ) * 0.5) +
        Real.sin (((f : ℝ) / (D : ℝ)) * Real.pi * 2 * 4 + (index : ℝ) * 0.5 * 1.5) * 0.5 +
        Real.cos (((f : ℝ) / (D : ℝ)) * Real.pi * 2 * 6 + (index : ℝ)) * 0.3))
    have hv0 := Remotion.le_clampHigh_clampLow
      (Real.sin (((f : ℝ) / (D : ℝ)) * Real.pi * 2 * 2 + (index : ℝ) * 0.5) +
        Real.sin (((f : ℝ) / (D : ℝ)) * Real.pi * 2 * 4 + (index : ℝ) * 0.5 * 1.5) * 0.5 +
        Real.cos (((f : ℝ) / (D : ℝ)) * Real.pi * 2 * 6 + (index : ℝ)) * 0.3)
      (show (-2 : ℝ) ≤ 2 by norm_num)
    constructor <;> linarith
  obtain ⟨hi0, hi1⟩ := hint
  have hA := Int.le_ceil (NeonEqualizer.getBarHeight D f index *
    (NeonEqualizer.SEGMENT_COUNT : ℝ))
  have hA15 : NeonEqualizer.activeSegments D f index ≤ 15 := by
    unfold NeonEqualizer.activeSegments
    apply Int.ceil_le.2
    show NeonEqualizer.getBarHeight D f index * (NeonEqualizer.SEGMENT_COUNT : ℝ) ≤
      ((15 : ℤ) : ℝ)
    have : (NeonEqualizer.SEGMENT_COUNT : ℝ) = 15 := by
      norm_num [NeonEqualizer.SEGMENT_COUNT]
    rw [this]
    push_cast
    nlinarith
  have hA2 : 2 ≤ NeonEqualizer.activeSegments D f index := by
    have h15 : (NeonEqualizer.SEGMENT_COUNT : ℝ) = 15 := by
      norm_num [NeonEqualizer.SEGMENT_COUNT]
    have hprod : (3 / 2 : ℝ) ≤ NeonEqualizer.getBarHeight D f index *
        (NeonEqualizer.SEGMENT_COUNT : ℝ) := by
      rw [h15]
      nlinarith
    have hcast : (3 / 2 : ℝ) ≤ ((NeonEqualizer.activeSegments D f index : ℤ) : ℝ) := by
      unfold NeonEqualizer.activeSegments
      linarith [hA]
    by_contra hlt
    push_neg at hlt
    have : NeonEqualizer.activeSegments D f index ≤ 1 := by omega
    have : ((NeonEqualizer.activeSegments D f index : ℤ) : ℝ) ≤ 1 := by exact_mod_cast this
    linarith
  have hfilter : (Finset.range NeonEqualizer.SEGMENT_COUNT).filter
      (fun i : ℕ => (i : ℤ) < NeonEqualizer.activeSegments D f index) =
      Finset.range (NeonEqualizer.activeSegments D f index).toNat := by
    ext j
    simp only [Finset.mem_filter, Finset.mem_range, NeonEqualizer.SEGMENT_COUNT]
    omega
  have hlit : NeonEqualizer.litSegments D f index =
      (NeonEqualizer.activeSegments D f index).toNat := by
    unfold NeonEqualizer.litSegments
    rw [hfilter, Finset.card_range]
  refine ⟨hi0, hi1, by omega, ?_, ?_, ?_⟩
  · show NeonEqualizer.activeSegments D f index ≤ ((15 : ℕ) : ℤ)
    exact_mod_cast hA15
  · rw [hlit]
    omega
  · rw [hlit]
    show (NeonEqualizer.activeSegments D f index).toNat ≤ 15
    omega

/-- C10 witness: the NeonEqualizer theorem instantiated at
durationInFrames 300 (the composition's 10 s at 30 fps), frame 7,
bar index 3. -/
theorem neonEqualizer_witness : 1 ≤ NeonEqualizer.litSegments 300 7 3 :=
  (neonEqualizer_props 300 7 3 (by norm_num)
    (by norm_num [NeonEqualizer.BAR_COUNT])).2.2.2.2.1

theorem fallingHearts_renderRun_eq
    (cache : Option (List FallingHeartsEmoji.HeartParticle))
    (hcache : cache = none ∨ cache = some FallingHeartsEmoji.hearts)
    (frames : List ℤ) :
    FallingHeartsEmoji.renderRun cache frames =
      frames.map FallingHeartsEmoji.pureRender := by
  induction frames generalizing cache with
  | nil => rcases hcache with h | h <;> rw [h] <;> rfl
  | cons f fs ih =>
    have hstep : FallingHeartsEmoji.renderFrame cache f =
        (FallingHeartsEmoji.pureRender f, some FallingHeartsEmoji.hearts) := by
      rcases hcache with h | h <;> rw [h] <;> rfl
    simp only [FallingHeartsEmoji.renderRun, hstep, List.map_cons]
    exact congrArg _ (ih _ (Or.inr rfl))

/-- C2: FallingHeartsEmoji is stateless and history-independent.  Running
the component over any sequence of frames, threading the React useMemo
cache from render to render, produces exactly the frame-wise pure outputs:
the output at frame f is the same regardless of which frames were rendered
before and in what order, and the particle layout used at every render is
the constant `hearts` list derived only from the per-particle seeds. -/
theorem fallingHearts_stateless (pre pre' frames : List ℤ) (f : ℤ) :
    FallingHeartsEmoji.renderRun none frames =
      frames.map FallingHeartsEmoji.pureRender ∧
    (FallingHeartsEmoji.renderRun none (pre ++ [f])).getLast? =
      some (FallingHeartsEmoji.pureRender f) ∧
    (FallingHeartsEmoji.renderRun none (pre ++ [f])).getLast? =
      (FallingHeartsEmoji.renderRun none (pre' ++ [f])).getLast? := by
  have hrun : ∀ l : List ℤ, FallingHeartsEmoji.renderRun none l =
      l.map FallingHeartsEmoji.pureRender :=
    fun l => fallingHearts_renderRun_eq none (Or.inl rfl) l
  have hlast : ∀ l : List ℤ,
      (FallingHeartsEmoji.renderRun none (l ++ [f])).getLast? =
        some (FallingHeartsEmoji.pureRender f) := by
    intro l
    rw [hrun, List.map_append, List.map_singleton, List.getLast?_concat]
  exact ⟨hrun frames, hlast pre, by rw [hlast pre, hlast pre']⟩

/-- C3: totality of the cited per-frame arithmetic at the default props:
the FallingHeartsEmoji color index `Math.floor(random(seed + 2) *
COLORS.length)` lies in {0, 1, 2} for every seed, hence the COLORS indexing
is in bounds, and every divisor appearing in the cited code is a nonzero
constant (ticksCount, fps, durationInFrames, COLORS.length). -/
theorem components_total_and_in_bounds (s : ℕ) :
    0 ≤ FallingHeartsEmoji.colorIndex s ∧
    FallingHeartsEmoji.colorIndex s < (FallingHeartsEmoji.COLORS.length : ℤ) ∧
    (FallingHeartsEmoji.colorIndex s).toNat < FallingHeartsEmoji.COLORS.length ∧
    SegmentedCountdown.ticksCount ≠ 0 ∧
    SegmentedCountdown.fps ≠ 0 ∧
    SegmentedCountdown.durationInFrames ≠ 0 ∧
    FallingHeartsEmoji.fps ≠ 0 ∧
    FallingHeartsEmoji.durationInFrames ≠ 0 ∧
    FallingHeartsEmoji.COLORS.length ≠ 0 := by
  have h0 := Remotion.random_nonneg (s + 2)
  have h1 := Remotion.random_lt_one (s + 2)
  have hlen : (FallingHeartsEmoji.COLORS.length : ℚ) = 3 := by
    norm_num [FallingHeartsEmoji.COLORS]
  have hlo : 0 ≤ FallingHeartsEmoji.colorIndex s := by
    unfold FallingHeartsEmoji.colorIndex
    apply Int.floor_nonneg.2
    rw [hlen]
    positivity
  have hhi : FallingHeartsEmoji.colorIndex s <
      (FallingHeartsEmoji.COLORS.length : ℤ) := by
    unfold FallingHeartsEmoji.colorIndex
    have : (FallingHeartsEmoji.COLORS.length : ℤ) = 3 := by
      norm_num [FallingHeartsEmoji.COLORS]
    rw [this]
    apply Int.floor_lt.2
    rw [hlen]
    push_cast
    nlinarith
  refine ⟨hlo, hhi, ?_, ?_, ?_, ?_, ?_, ?_, ?_⟩
  · have h3 : (FallingHeartsEmoji.COLORS.length : ℤ) = 3 := by
      norm_num [FallingHeartsEmoji.COLORS]
    rw [h3] at hhi
    show (FallingHeartsEmoji.colorIndex s).toNat < 3
    omega
  · norm_num [SegmentedCountdown.ticksCount]
  · norm_num [SegmentedCountdown.fps]
  · norm_num [SegmentedCountdown.durationInFrames, SegmentedCountdown.durationInSeconds,
      SegmentedCountdown.fps]
  · norm_num [FallingHeartsEmoji.fps]
  · norm_num [FallingHeartsEmoji.durationInFrames, FallingHeartsEmoji.durationInSeconds,
      FallingHeartsEmoji.fps]
  · norm_num [FallingHeartsEmoji.COLORS]
